import Mathlib

/-!
Verification of the x509 name-policy engine (`policy/x509/x509.go`).

Go strings are byte sequences, so every Go `string` is modelled as a
`List Nat` of byte values (0–255).  Go slices of bytes are modelled the
same way.  Fallible Go functions returning `(T, bool)` become `Option T`,
and functions returning `(T, error)` become `Except (List Nat) T`, the
error payload being the bytes of the message produced by `fmt.Errorf` /
`errors.Errorf` (its `Error()` rendering).
-/

set_option maxHeartbeats 1000000
set_option maxRecDepth 4000

/-- Byte values of an ASCII string literal (Go strings are UTF-8 bytes;
all literals in this file are ASCII, where code points equal bytes). -/
def strBytes (s : String) : List Nat :=
  s.data.map Char.toNat

/-- ASCII lower-casing of one byte, the fast path of Go `strings.EqualFold`. -/
def asciiLower (b : Nat) : Nat :=
  if 65 ≤ b ∧ b ≤ 90 then b + 32 else b

/-- Model of Go `strings.EqualFold`.  The full Go function performs Unicode
simple folding rune by rune, with a byte-wise ASCII fast path; in this
package it is only ever applied to labels produced by
`domainToReverseLabels`, whose bytes all lie in [33,126], where it is
exactly ASCII case-insensitive equality. -/
def eqFold (a b : List Nat) : Bool :=
  a.map asciiLower == b.map asciiLower

/-- Lower-case hexadecimal digit, as used by Go `strconv` and `net`. -/
def hexDigit (n : Nat) : Nat :=
  if n < 10 then 48 + n else 87 + n

/-- Quoting of one byte, following Go `strconv.Quote`: `"` and `\` are
backslash-escaped, printable ASCII is kept, the named control escapes
\a \b \t \n \v \f \r are used for bytes 7–13, anything else becomes
\xHH.  (`strconv.Quote` works rune-wise; this byte-wise model agrees
with it on ASCII input, which is the only input this package quotes.) -/
def goQuoteByte (b : Nat) : List Nat :=
  if b = 34 then [92, 34]
  else if b = 92 then [92, 92]
  else if 32 ≤ b ∧ b ≤ 126 then [b]
  else if b = 7 then [92, 97]
  else if b = 8 then [92, 98]
  else if b = 9 then [92, 116]
  else if b = 10 then [92, 110]
  else if b = 11 then [92, 118]
  else if b = 12 then [92, 102]
  else if b = 13 then [92, 114]
  else [92, 120, hexDigit (b / 16), hexDigit (b % 16)]

/-- Model of Go `%q` applied to a string: `strconv.Quote`. -/
def goQuote (s : List Nat) : List Nat :=
  [34] ++ (s.map goQuoteByte).flatten ++ [34]

/-- Equality of `Except` values is decidable when both components are. -/
instance {ε α : Type} [DecidableEq ε] [DecidableEq α] : DecidableEq (Except ε α)
  | .error e, .error f =>
    if h : e = f then .isTrue (by rw [h]) else .isFalse (by intro hh; cases hh; exact h rfl)
  | .error _, .ok _ => .isFalse (by intro hh; cases hh)
  | .ok _, .error _ => .isFalse (by intro hh; cases hh)
  | .ok a, .ok b =>
    if h : a = b then .isTrue (by rw [h]) else .isFalse (by intro hh; cases hh; exact h rfl)

/-- Model of Go `strings.LastIndexByte`: index of the last occurrence. -/
def lastIndexByte : List Nat → Nat → Option Nat
  | [], _ => none
  | c :: rest, b =>
    match lastIndexByte rest b with
    | some i => some (i + 1)
    | none => if c = b then some 0 else none

/-- Fuelled loop of `domainToReverseLabels` (x509.go lines 263–271):
repeatedly split the domain at its last `.`, collecting the suffix
segments.  The fuel is only a structural-recursion bound: every
iteration strictly shrinks the remaining domain, so `length + 1` units
(as supplied by `d2rlLoop`) are never exhausted. -/
def d2rlLoopF : Nat → List Nat → List (List Nat)
  | 0, _ => []
  | fuel + 1, domain =>
    if domain = [] then []
    else
      match lastIndexByte domain 46 with
      | none => [domain]
      | some i => domain.drop (i + 1) :: d2rlLoopF fuel (domain.take i)

/-- Splitting loop of `domainToReverseLabels`. -/
def d2rlLoop (domain : List Nat) : List (List Nat) :=
  d2rlLoopF (domain.length + 1) domain

/-- Model of `domainToReverseLabels` (x509.go lines 262–293).  After the
splitting loop: a leading empty reversed label (absolute name, trailing
dot) is invalid, any empty label is invalid, and any label byte outside
[33,126] is invalid.  (Go iterates runes for the byte-range test; on
bytes ≥ 0x80 the decoded rune — possibly U+FFFD — always exceeds 126,
so the byte-level test below is equivalent.) -/
def domainToReverseLabels (domain : List Nat) : Option (List (List Nat)) :=
  let reverseLabels := d2rlLoop domain
  if reverseLabels.head? = some [] then none
  else if reverseLabels.any (fun label =>
      label.isEmpty || label.any (fun c => c < 33 || 126 < c)) then none
  else some reverseLabels

/-- Pairwise case-folded comparison of the constraint labels against the
leading domain labels, the `for i, constraintLabel := range` loop of
`matchDomainConstraint` (x509.go lines 478–482). -/
def labelsMatchFold : List (List Nat) → List (List Nat) → Bool
  | [], _ => true
  | _ :: _, [] => false
  | c :: cs, d :: ds => eqFold c d && labelsMatchFold cs ds

/-- Model of `matchDomainConstraint` (x509.go lines 445–485). -/
def matchDomainConstraint (domain constraint : List Nat) : Except (List Nat) Bool :=
  if constraint = [] then .ok true
  else
    match domainToReverseLabels domain with
    | none => .error (strBytes (r"cannot parse domain ") ++ goQuote domain)
    | some domainLabels =>
      let mustHaveSubdomains := constraint.head? = some 46
      let constraint1 := if constraint.head? = some 46 then constraint.tail else constraint
      match domainToReverseLabels constraint1 with
      | none => .error (strBytes (r"cannot parse domain ") ++ goQuote constraint1)
      | some constraintLabels =>
        if domainLabels.length < constraintLabels.length ∨
            (mustHaveSubdomains ∧ domainLabels.length = constraintLabels.length) then
          .ok false
        else
          .ok (labelsMatchFold constraintLabels domainLabels)

/-- Mailbox of RFC 2821: the part before the `@` and the part after it
(x509.go lines 299–301).  The Go field `local` is a reserved word in
Lean and is rendered `localPart`. -/
structure rfc2821Mailbox where
  localPart : List Nat
  domain : List Nat
deriving DecidableEq

/-- Byte test of the `qtext` case of the quoted-string mode of
`parseRFC2821Mailbox` (x509.go lines 354–367): 11, 12, 32 (space,
accepted by design), 33, 127, 1–8, 14–31, 35–91, 93–126. -/
def isQtext (c : Nat) : Bool :=
  decide (c = 11 ∨ c = 12 ∨ c = 32 ∨ c = 33 ∨ c = 127 ∨ (1 ≤ c ∧ c ≤ 8) ∨
    (14 ≤ c ∧ c ≤ 31) ∨ (35 ≤ c ∧ c ≤ 91) ∨ (93 ≤ c ∧ c ≤ 126))

/-- Byte allowed after a backslash in quoted-string mode (x509.go lines
344–347): 11, 12, 1–9, 14–127. -/
def isQuotedPairByte (c : Nat) : Bool :=
  decide (c = 11 ∨ c = 12 ∨ (1 ≤ c ∧ c ≤ 9) ∨ (14 ≤ c ∧ c ≤ 127))

/-- The `QuotedString` loop of `parseRFC2821Mailbox` (x509.go lines
327–374), run after the opening `"` has been consumed: returns the
accumulated local-part bytes and the input remaining after the closing
`"`, or `none` on a forbidden byte or end of input. -/
def quotedString : List Nat → List Nat → Option (List Nat × List Nat)
  | [], _ => none
  | c :: rest, acc =>
    if c = 34 then some (acc, rest)
    else if c = 92 then
      match rest with
      | [] => none
      | d :: rest1 => if isQuotedPairByte d then quotedString rest1 (acc ++ [d]) else none
    else if isQtext c then quotedString rest (acc ++ [c])
    else none

/-- Byte test of the `atext` case of the atom mode of
`parseRFC2821Mailbox` (x509.go lines 395–402): alphanumerics and
! # $ % & ' * + - / = ? ^ _ ` \x7b | \x7d ~ . -/
def isAtext (c : Nat) : Bool :=
  decide ((48 ≤ c ∧ c ≤ 57) ∨ (97 ≤ c ∧ c ≤ 122) ∨ (65 ≤ c ∧ c ≤ 90) ∨
    c = 33 ∨ c = 35 ∨ c = 36 ∨ c = 37 ∨ c = 38 ∨ c = 39 ∨ c = 42 ∨ c = 43 ∨
    c = 45 ∨ c = 47 ∨ c = 61 ∨ c = 63 ∨ c = 94 ∨ c = 95 ∨ c = 96 ∨ c = 123 ∨
    c = 124 ∨ c = 125 ∨ c = 126 ∨ c = 46)

/-- The `NextChar` loop of the atom mode of `parseRFC2821Mailbox`
(x509.go lines 377–409): a backslash unconditionally admits the next
byte (failing at end of input), `atext` bytes are accumulated, and the
loop stops at the first other byte. -/
def atomLoop : List Nat → List Nat → Option (List Nat × List Nat)
  | [], acc => some (acc, [])
  | c :: rest, acc =>
    if c = 92 then
      match rest with
      | [] => none
      | d :: rest1 => atomLoop rest1 (acc ++ [d])
    else if isAtext c then atomLoop rest (acc ++ [c])
    else some (acc, c :: rest)

/-- Model of `bytes.Contains(localPartBytes, twoDots)` (x509.go lines
419–422). -/
def hasTwoDots : List Nat → Bool
  | 46 :: 46 :: _ => true
  | _ :: rest => hasTwoDots rest
  | [] => false

/-- Model of `parseRFC2821Mailbox` (x509.go lines 308–442). -/
def parseRFC2821Mailbox (input : List Nat) : Option rfc2821Mailbox :=
  match input with
  | [] => none
  | c :: rest =>
    -- the shared tail of both modes (x509.go lines 427–441): expect `@`,
    -- then the remainder is the domain and must survive
    -- `domainToReverseLabels`
    let finish : List Nat × List Nat → Option rfc2821Mailbox := fun lr =>
      match lr.2 with
      | 64 :: domain =>
        if (domainToReverseLabels domain).isSome then some ⟨lr.1, domain⟩ else none
      | _ => none
    if c = 34 then
      match quotedString rest [] with
      | none => none
      | some res => finish res
    else
      match atomLoop (c :: rest) [] with
      | none => none
      | some res =>
        if res.1.isEmpty then none
        else if res.1.head? = some 46 ∨ res.1.getLast? = some 46 ∨ hasTwoDots res.1 then none
        else finish res

/-- Model of `matchEmailConstraint` (x509.go lines 521–534). -/
def matchEmailConstraint (mailbox : rfc2821Mailbox) (constraint : List Nat) :
    Except (List Nat) Bool :=
  if constraint.contains 64 then
    match parseRFC2821Mailbox constraint with
    | none => .error (strBytes (r"cannot parse constraint ") ++ goQuote constraint)
    | some constraintMailbox =>
      .ok (mailbox.localPart == constraintMailbox.localPart &&
        eqFold mailbox.domain constraintMailbox.domain)
  else matchDomainConstraint mailbox.domain constraint

/-- Prefix marking an IPv4 address held in 16-byte form
(`net.v4InV6Prefix`). -/
def v4InV6Prefix : List Nat := [0, 0, 0, 0, 0, 0, 0, 0, 0, 0, 255, 255]

/-- Model of Go `net.IP.To4` (go1.17.5 net/ip.go): a 4-byte address is
returned unchanged; a 16-byte address with the v4-in-v6 prefix is cut
to its last 4 bytes; anything else is nil. -/
def to4 (ip : List Nat) : Option (List Nat) :=
  if ip.length = 4 then some ip
  else if ip.length = 16 ∧ ip.take 12 = v4InV6Prefix then some (ip.drop 12)
  else none

/-- An address/mask pair as held by Go `net.IPNet`. -/
structure IPNet where
  ip : List Nat
  mask : List Nat
deriving DecidableEq

/-- Model of Go `net.networkNumberAndMask` (go1.17.5 net/ip.go): the
network address is normalized through `To4`, a 16-byte mask paired
with a 4-byte network is cut to its last 4 bytes, and inconsistent
lengths yield nil (modelled as `none`). -/
def networkNumberAndMask (n : IPNet) : Option (List Nat × List Nat) :=
  match (match to4 n.ip with
         | some ip4 => some ip4
         | none => if n.ip.length = 16 then some n.ip else none) with
  | none => none
  | some nn =>
    if n.mask.length = 4 then
      if nn.length ≠ 4 then none else some (nn, n.mask)
    else if n.mask.length = 16 then
      some (nn, if nn.length = 4 then n.mask.drop 12 else n.mask)
    else none

/-- The masked-comparison loop of Go `net.IPNet.Contains`: at every
index, `nn[i]&m[i] == ip[i]&m[i]`.  The Go loop runs over equal-length
`nn` and `ip` (checked before the loop) and indexes into `m`, whose
length always suffices for the well-formed nets built by
`net.ParseCIDR`; a length mismatch is mapped to `false` here. -/
def maskedEq : List Nat → List Nat → List Nat → Bool
  | [], [], _ => true
  | a :: as1, b :: bs, c :: cs => (Nat.land a c == Nat.land b c) && maskedEq as1 bs cs
  | _, _, _ => false

/-- Model of Go `net.IPNet.Contains` (go1.17.5 net/ip.go): normalize
the candidate through `To4`, require equal lengths with the network
number, then compare under the mask.  When `networkNumberAndMask`
yields nil, the Go code compares against a nil slice: only a candidate
that itself normalizes to length 0 passes the length check (and then
the empty loop returns true). -/
def ipnetContains (n : IPNet) (ip : List Nat) : Bool :=
  match networkNumberAndMask n with
  | none => ((to4 ip).getD ip).isEmpty
  | some nm =>
    let ip1 := (to4 ip).getD ip
    ip1.length == nm.1.length && maskedEq nm.1 ip1 nm.2

/-- Model of `matchIPConstraint` (x509.go lines 488–514): the live code
is exactly `constraint.Contains(ip)` and never errors. -/
def matchIPConstraint (ip : List Nat) (constraint : IPNet) : Except (List Nat) Bool :=
  .ok (ipnetContains constraint ip)

/-- Model of `isIPv4` (x509.go lines 516–518). -/
def isIPv4 (ip : List Nat) : Bool :=
  (to4 ip).isSome

/-- Decimal rendering of a number as bytes (Go `uitoa`). -/
def uitoa (n : Nat) : List Nat :=
  (Nat.toDigits 10 n).map Char.toNat

/-- Hexadecimal rendering without leading zeros (Go `appendHex` in
net/ip.go; `0` renders as `0`). -/
def natToHex (n : Nat) : List Nat :=
  (Nat.toDigits 16 n).map Char.toNat

/-- Two lower-case hex digits per byte (Go `hexString` in net/ip.go). -/
def hexString (b : List Nat) : List Nat :=
  (b.map (fun x => [hexDigit (x / 16), hexDigit (x % 16)])).flatten

/-- The 16-bit groups of a 16-byte IPv6 address, big-endian. -/
def v6Groups : List Nat → List Nat
  | a :: b :: rest => (a * 256 + b) :: v6Groups rest
  | _ => []

/-- Leading zero-valued groups of a group list. -/
def leadZeroGroups : List Nat → Nat
  | 0 :: rest => 1 + leadZeroGroups rest
  | _ => 0

/-- Leftmost longest run of zero groups (start index and length), kept
only when strictly longer than the best so far — the `e0`/`e1` scan of
Go `net.IP.String`.  Runs of a single group are discarded afterwards. -/
def bestZeroRunAux : List Nat → Nat → Option (Nat × Nat) → Option (Nat × Nat)
  | [], _, best => best
  | g :: rest, i, best =>
    let r := leadZeroGroups (g :: rest)
    let bestLen := (best.map Prod.snd).getD 0
    bestZeroRunAux rest (i + 1) (if r > bestLen then some (i, r) else best)

/-- Zero-group run selected for `::` compression, if any (length ≥ 2). -/
def bestZeroRun (gs : List Nat) : Option (Nat × Nat) :=
  match bestZeroRunAux gs 0 none with
  | some nr => if nr.2 ≤ 1 then none else some nr
  | none => none

/-- Group rendering loop of Go `net.IP.String`: hex groups joined by
`:`, with the selected zero run collapsed to `::`.  `e0`/`e1` are the
first group of the run and the first group after it (or 8/8 when no
run is selected).  The fuel is a structural-recursion bound only; the
index grows every call, so 8 units always suffice. -/
def v6RenderAux (gs : List Nat) (e0 e1 : Nat) : Nat → Nat → List Nat
  | 0, _ => []
  | fuel + 1, i =>
    if 8 ≤ i then []
    else if i = e0 then
      [58, 58] ++
        (if 8 ≤ e1 then []
         else natToHex (gs.getD e1 0) ++ v6RenderAux gs e0 e1 fuel (e1 + 1))
    else
      (if 0 < i then [58] else []) ++ natToHex (gs.getD i 0) ++ v6RenderAux gs e0 e1 fuel (i + 1)

/-- Model of Go `net.IP.String` (go1.17.5 net/ip.go): nil renders as
`<nil>`, an address with a 4-byte form renders dotted-decimal, a
16-byte address renders as compressed lower-case hex groups, and any
other length renders as `?` followed by raw hex. -/
def ipString (ip : List Nat) : List Nat :=
  if ip.isEmpty then strBytes (r"<nil>")
  else
    match to4 ip with
    | some p4 =>
      match p4 with
      | [a, b, c, d] => uitoa a ++ [46] ++ uitoa b ++ [46] ++ uitoa c ++ [46] ++ uitoa d
      | _ => []
    | none =>
      if ip.length ≠ 16 then [63] ++ hexString ip
      else
        let gs := v6Groups ip
        match bestZeroRun gs with
        | some se => v6RenderAux gs se.1 (se.1 + se.2) 8 0
        | none => v6RenderAux gs 8 8 8 0

/-- Number of leading one bits of a mask byte, when the byte is a
valid mask byte (ones followed by zeros). -/
def byteOnes : Nat → Option Nat
  | 0 => some 0
  | 128 => some 1
  | 192 => some 2
  | 224 => some 3
  | 240 => some 4
  | 248 => some 5
  | 252 => some 6
  | 254 => some 7
  | 255 => some 8
  | _ => none

/-- Model of Go `net.simpleMaskLength`: the prefix length of a
canonical mask (ones followed by zeros), or `none` (Go: -1). -/
def simpleMaskLength : List Nat → Option Nat
  | [] => some 0
  | 255 :: rest => (simpleMaskLength rest).map (8 + ·)
  | v :: rest =>
    match byteOnes v with
    | none => none
    | some k => if rest.all (· = 0) then some k else none

/-- Model of Go `net.IPMask.String`: raw hex, `<nil>` when empty. -/
def maskString (m : List Nat) : List Nat :=
  if m.isEmpty then strBytes (r"<nil>") else hexString m

/-- Model of Go `net.IPNet.String` (go1.17.5 net/ip.go). -/
def ipnetString (n : IPNet) : List Nat :=
  match networkNumberAndMask n with
  | none => strBytes (r"<nil>")
  | some nm =>
    match simpleMaskLength nm.2 with
    | none => ipString nm.1 ++ [47] ++ maskString nm.2
    | some l => ipString nm.1 ++ [47] ++ uitoa l

/-- Decimal scanner of Go `net.dtoi` (go1.17.5 net/parse.go): value,
characters consumed, success.  Values reaching `big` (0xFFFFFF) fail
with `(big, i, false)`; an empty digit run fails. -/
def dtoiAux : List Nat → Nat → Nat → Nat × Nat × Bool
  | c :: rest, n, i =>
    if 48 ≤ c ∧ c ≤ 57 then
      let n1 := n * 10 + (c - 48)
      if n1 ≥ 0xFFFFFF then (0xFFFFFF, i, false) else dtoiAux rest n1 (i + 1)
    else if i = 0 then (0, 0, false) else (n, i, true)
  | [], n, i => if i = 0 then (0, 0, false) else (n, i, true)

/-- Go `net.dtoi`. -/
def dtoi (s : List Nat) : Nat × Nat × Bool :=
  dtoiAux s 0 0

/-- Value of one hexadecimal digit byte, if any. -/
def hexVal (c : Nat) : Option Nat :=
  if 48 ≤ c ∧ c ≤ 57 then some (c - 48)
  else if 97 ≤ c ∧ c ≤ 102 then some (c - 97 + 10)
  else if 65 ≤ c ∧ c ≤ 70 then some (c - 65 + 10)
  else none

/-- Hexadecimal scanner of Go `net.xtoi` (go1.17.5 net/parse.go):
values reaching `big` fail with `(0, i, false)`. -/
def xtoiAux : List Nat → Nat → Nat → Nat × Nat × Bool
  | c :: rest, n, i =>
    match hexVal c with
    | some v =>
      let n1 := n * 16 + v
      if n1 ≥ 0xFFFFFF then (0, i, false) else xtoiAux rest n1 (i + 1)
    | none => if i = 0 then (0, i, false) else (n, i, true)
  | [], n, i => if i = 0 then (0, i, false) else (n, i, true)

/-- Go `net.xtoi`. -/
def xtoi (s : List Nat) : Nat × Nat × Bool :=
  xtoiAux s 0 0

/-- Field loop of Go `net.parseIPv4` (go1.17.5 net/ip.go), counting
down the four dotted fields: a field after the first must be preceded
by `.`; each field is a decimal run of value ≤ 255 without leading
zeros; input must be exhausted at the end. -/
def parseIPv4Loop : Nat → List Nat → List Nat → Option (List Nat)
  | 0, s, acc => if s.isEmpty then some acc else none
  | k + 1, s, acc =>
    if s.isEmpty then none
    else
      match (if acc.isEmpty then some s else
             match s with
             | 46 :: rest => some rest
             | _ => none) with
      | none => none
      | some s1 =>
        let nco := dtoi s1
        if ¬nco.2.2 ∨ nco.1 > 255 then none
        else if nco.2.1 > 1 ∧ s1.head? = some 48 then none
        else parseIPv4Loop k (s1.drop nco.2.1) (acc ++ [nco.1])

/-- Model of Go `net.parseIPv4`: the result is returned through the
`net.IPv4` constructor, i.e. in 16-byte form with the v4-in-v6 prefix. -/
def parseIPv4 (s : List Nat) : Option (List Nat) :=
  (parseIPv4Loop 4 s []).map (v4InV6Prefix ++ ·)

/-- Main loop of Go `net.parseIPv6` (go1.17.5 net/ip.go).  Arguments:
remaining input, bytes written so far (Go's `ip[0:i]`), position of the
`::` ellipsis if seen.  Returns the written bytes, the unconsumed
input, and the ellipsis, or `none` on a syntax error.  The fuel is a
structural-recursion bound only: every recursive call adds two bytes,
so when 8 units are spent the 16-byte capacity is full and the
fuel-exhausted case coincides with the loop-condition exit. -/
def parseIPv6Loop : Nat → List Nat → List Nat → Option Nat →
    Option (List Nat × List Nat × Option Nat)
  | 0, s, acc, ellipsis => some (acc, s, ellipsis)
  | fuel + 1, s, acc, ellipsis =>
    if 16 ≤ acc.length then some (acc, s, ellipsis)
    else
      let nco := xtoi s
      if ¬nco.2.2 ∨ nco.1 > 0xFFFF then none
      else if (s.drop nco.2.1).head? = some 46 then
        -- trailing embedded IPv4 address
        if ellipsis = none ∧ acc.length ≠ 12 then none
        else if acc.length + 4 > 16 then none
        else
          match parseIPv4 s with
          | none => none
          | some ip4 => some (acc ++ ip4.drop 12, [], ellipsis)
      else
        let acc1 := acc ++ [nco.1 / 256, nco.1 % 256]
        let s1 := s.drop nco.2.1
        if s1.isEmpty then some (acc1, [], ellipsis)
        else
          match s1 with
          | 58 :: s2 =>
            if s2.isEmpty then none
            else
              match s2 with
              | 58 :: s3 =>
                if ellipsis.isSome then none
                else if s3.isEmpty then some (acc1, [], some acc1.length)
                else parseIPv6Loop fuel s3 acc1 (some acc1.length)
              | _ => parseIPv6Loop fuel s2 acc1 ellipsis
          | _ => none

/-- Post-loop checks and `::` expansion of Go `net.parseIPv6`: input
must be exhausted; fewer than 16 bytes require an ellipsis, at which
zeros are inserted (Go shifts the tail in place, equivalent to this
insertion); a full 16 bytes with an ellipsis is an error. -/
def parseIPv6Finish : Option (List Nat × List Nat × Option Nat) → Option (List Nat)
  | none => none
  | some ase =>
    match ase with
    | (acc, sRem, ellipsis) =>
      if ¬sRem.isEmpty then none
      else if acc.length < 16 then
        match ellipsis with
        | none => none
        | some e => some (acc.take e ++ List.replicate (16 - acc.length) 0 ++ acc.drop e)
      else if ellipsis.isSome then none
      else some acc

/-- Model of Go `net.parseIPv6`, with the leading-`::` special case. -/
def parseIPv6 (s : List Nat) : Option (List Nat) :=
  match s with
  | 58 :: 58 :: rest =>
    if rest.isEmpty then some (List.replicate 16 0)
    else parseIPv6Finish (parseIPv6Loop 8 rest [] (some 0))
  | _ => parseIPv6Finish (parseIPv6Loop 8 s [] none)

/-- Model of Go `net.splitHostZone`: split at the last `%` when it is
not the first byte. -/
def splitHostZone (s : List Nat) : List Nat × List Nat :=
  match lastIndexByte s 37 with
  | some i => if 0 < i then (s.take i, s.drop (i + 1)) else (s, [])
  | none => (s, [])

/-- First `.` or `:` byte of the input, which Go `net.ParseIP` uses to
pick a parser. -/
def firstDotColon : List Nat → Option Nat
  | [] => none
  | c :: rest => if c = 46 ∨ c = 58 then some c else firstDotColon rest

/-- Model of Go `net.ParseIP` (go1.17.5 net/ip.go): dispatch on the
first `.` or `:`; a `:` routes through `parseIPv6Zone`, which strips a
`%zone` suffix first. -/
def parseIP (s : List Nat) : Option (List Nat) :=
  match firstDotColon s with
  | some 46 => parseIPv4 s
  | some 58 => parseIPv6 (splitHostZone s).1
  | _ => none

/-- Model of Go `net.byteIndex`: index of the first occurrence. -/
def byteIndex : List Nat → Nat → Option Nat
  | [], _ => none
  | c :: rest, b => if c = b then some 0 else (byteIndex rest b).map (· + 1)

/-- Error rendering of Go `net.AddrError` with a nonempty address. -/
def addrErr (addr why : List Nat) : List Nat :=
  strBytes (r"address ") ++ addr ++ strBytes (r": ") ++ why

/-- Message `missing port in address`. -/
def missingPortMsg : List Nat := strBytes (r"missing port in address")

/-- Message `too many colons in address`. -/
def tooManyColonsMsg : List Nat := strBytes (r"too many colons in address")

/-- Message of the missing-bracket error (the bracket is quoted between
byte-39 apostrophes in the Go literal). -/
def missingRBracketMsg : List Nat :=
  strBytes (r"missing ") ++ [39, 93, 39] ++ strBytes (r" in address")

/-- Message of the unexpected-open-bracket error. -/
def unexpectedLBracketMsg : List Nat :=
  strBytes (r"unexpected ") ++ [39, 91, 39] ++ strBytes (r" in address")

/-- Message of the unexpected-close-bracket error. -/
def unexpectedRBracketMsg : List Nat :=
  strBytes (r"unexpected ") ++ [39, 93, 39] ++ strBytes (r" in address")

/-- Shared tail of Go `net.SplitHostPort`: reject stray brackets after
positions `j`/`k`, then cut the port after the last colon `i`. -/
def splitHostPortTail (hostPort host : List Nat) (j k i : Nat) :
    Except (List Nat) (List Nat × List Nat) :=
  if (hostPort.drop j).contains 91 then .error (addrErr hostPort unexpectedLBracketMsg)
  else if (hostPort.drop k).contains 93 then .error (addrErr hostPort unexpectedRBracketMsg)
  else .ok (host, hostPort.drop (i + 1))

/-- Model of Go `net.SplitHostPort` (go1.17.5 net/ipsock.go). -/
def splitHostPort (hostPort : List Nat) : Except (List Nat) (List Nat × List Nat) :=
  match lastIndexByte hostPort 58 with
  | none => .error (addrErr hostPort missingPortMsg)
  | some i =>
    if hostPort.head? = some 91 then
      match byteIndex hostPort 93 with
      | none => .error (addrErr hostPort missingRBracketMsg)
      | some endIdx =>
        if endIdx + 1 = hostPort.length then .error (addrErr hostPort missingPortMsg)
        else if endIdx + 1 = i then
          splitHostPortTail hostPort ((hostPort.drop 1).take (endIdx - 1)) 1 (endIdx + 1) i
        else if (hostPort.drop (endIdx + 1)).head? = some 58 then
          .error (addrErr hostPort tooManyColonsMsg)
        else .error (addrErr hostPort missingPortMsg)
    else
      let host := hostPort.take i
      if host.contains 58 then .error (addrErr hostPort tooManyColonsMsg)
      else splitHostPortTail hostPort host 0 0 i

/-- Model of the slice of `net/url.URL` that this package reads: the
`Host` field, plus the `String()` rendering carried as data (URL
parsing and serialization live in `net/url`, outside this repository;
`uri.String()` is used only inside error messages). -/
structure URL where
  Host : List Nat
  str : List Nat
deriving DecidableEq

/-- Port stripping of `matchURIConstraint` (x509.go lines 551–557):
when the host contains `:` and does not end with `]`, it is split by
`net.SplitHostPort` and the host part kept. -/
def uriEffectiveHost (host : List Nat) : Except (List Nat) (List Nat) :=
  if host.contains 58 ∧ host.getLast? ≠ some 93 then
    (splitHostPort host).map Prod.fst
  else .ok host

/-- Model of `matchURIConstraint` (x509.go lines 537–565). -/
def matchURIConstraint (uri : URL) (constraint : List Nat) : Except (List Nat) Bool :=
  if uri.Host.isEmpty then
    .error (strBytes (r"URI with empty host (") ++ goQuote uri.str ++
      strBytes (r") cannot be matched against constraints"))
  else
    match uriEffectiveHost uri.Host with
    | .error e => .error e
    | .ok host =>
      if (host.head? = some 91 ∧ host.getLast? = some 93) ∨ (parseIP host).isSome then
        .error (strBytes (r"URI with IP (") ++ goQuote uri.str ++
          strBytes (r") cannot be matched against constraints"))
      else matchDomainConstraint host constraint

/-- The values of Go `x509.InvalidReason` named by this package. -/
inductive InvalidReason where
  | NotAuthorizedToSign
  | Expired
  | CANotAuthorizedForThisName
  | TooManyIntermediates
  | IncompatibleUsage
  | NameMismatch
  | NameConstraintsWithoutSANs
  | UnconstrainedName
  | CANotAuthorizedForExtKeyUsage
deriving DecidableEq

/-- Model of `CertificateInvalidError` (x509.go lines 16–19). -/
structure CertificateInvalidError where
  Reason : InvalidReason
  Detail : List Nat
deriving DecidableEq

/-- Detail of the excluded-match refusal (x509.go line 221); the last
argument is the `%q` rendering of the matching constraint. -/
def excludedDetail (nameType name fmtConstraint : List Nat) : List Nat :=
  nameType ++ [32] ++ goQuote name ++ strBytes (r" is excluded by constraint ") ++ fmtConstraint

/-- Detail of the permitted-non-match refusal (x509.go line 252). -/
def notPermittedDetail (nameType name : List Nat) : List Nat :=
  nameType ++ [32] ++ goQuote name ++ strBytes (r" is not permitted by any constraint")

/-- Excluded-list loop of `checkNameConstraints` (x509.go lines
208–224): a matcher error or a match both abort with a
`CANotAuthorizedForThisName` error. -/
def excludedScan {α β : Type} (nameType name : List Nat) (parsedName : α)
    (m : α → β → Except (List Nat) Bool) (fmtC : β → List Nat) :
    List β → Except CertificateInvalidError Unit
  | [] => .ok ()
  | c :: cs =>
    match m parsedName c with
    | .error e => .error ⟨.CANotAuthorizedForThisName, e⟩
    | .ok true => .error ⟨.CANotAuthorizedForThisName, excludedDetail nameType name (fmtC c)⟩
    | .ok false => excludedScan nameType name parsedName m fmtC cs

/-- Permitted-list loop of `checkNameConstraints` (x509.go lines
234–247) on a nonempty list: the Go flag `ok` holds the last match
result and the loop breaks on the first `true`, so the loop computes
"some entry matches", aborting on a matcher error. -/
def permittedAny {α β : Type} (parsedName : α)
    (m : α → β → Except (List Nat) Bool) : List β → Except (List Nat) Bool
  | [] => .ok false
  | c :: cs =>
    match m parsedName c with
    | .error e => .error e
    | .ok true => .ok true
    | .ok false => permittedAny parsedName m cs

/-- Model of `checkNameConstraints` (x509.go lines 192–257).  Go passes
`permitted`/`excluded` as `interface\x7b\x7d` values walked by
reflection and formats each constraint with `%q`; the shallow embedding
uses typed lists and takes the `%q` rendering as the function `fmtC`
(`strconv.Quote` for string constraints, quoted `IPNet.String()` for IP
ranges).  Go initializes its flag `ok` to `true`, so an empty permitted
list accepts. -/
def checkNameConstraints {α β : Type} (nameType name : List Nat) (parsedName : α)
    (m : α → β → Except (List Nat) Bool) (fmtC : β → List Nat)
    (permitted excluded : List β) : Except CertificateInvalidError Unit :=
  match excludedScan nameType name parsedName m fmtC excluded with
  | .error e => .error e
  | .ok _ =>
    match (if permitted.isEmpty then .ok true else permittedAny parsedName m permitted) with
    | .error e => .error (⟨.CANotAuthorizedForThisName, e⟩ : CertificateInvalidError)
    | .ok true => .ok ()
    | .ok false => .error ⟨.CANotAuthorizedForThisName, notPermittedDetail nameType name⟩

/-- Model of `NamePolicyEngine` (x509.go lines 51–61).  The `options`
field only records the construction steps and is never read by the
validation path; it is omitted. -/
structure NamePolicyEngine where
  permittedDNSDomains : List (List Nat)
  excludedDNSDomains : List (List Nat)
  permittedIPRanges : List IPNet
  excludedIPRanges : List IPNet
  permittedEmailAddresses : List (List Nat)
  excludedEmailAddresses : List (List Nat)
  permittedURIDomains : List (List Nat)
  excludedURIDomains : List (List Nat)
deriving DecidableEq

/-- The engine with no constraints configured. -/
def emptyEngine : NamePolicyEngine :=
  ⟨[], [], [], [], [], [], [], []⟩

/-- Error type of `validateNames`: either a plain parse error built by
`errors.Errorf`/`fmt.Errorf` (carried as its message bytes) or a
`CertificateInvalidError` from `checkNameConstraints`. -/
inductive PolicyError where
  | parse (msg : List Nat)
  | invalid (e : CertificateInvalidError)
deriving DecidableEq

/-- Rendering of fmt `%q` applied to an `rfc2821Mailbox` value: fmt
prints a struct brace-enclosed, applying the verb to each field. -/
def goFmtQMailbox (m : rfc2821Mailbox) : List Nat :=
  [123] ++ goQuote m.localPart ++ [32] ++ goQuote m.domain ++ [125]

/-- DNS loop of `validateNames` (x509.go lines 133–143). -/
def validateDNSNames (eng : NamePolicyEngine) : List (List Nat) → Except PolicyError Unit
  | [] => .ok ()
  | dns :: rest =>
    if (domainToReverseLabels dns).isNone then
      .error (.parse (strBytes (r"cannot parse dns ") ++ goQuote dns))
    else
      match checkNameConstraints (strBytes (r"dns")) dns dns
          (fun d c => matchDomainConstraint d c) goQuote
          eng.permittedDNSDomains eng.excludedDNSDomains with
      | .error e => .error (.invalid e)
      | .ok _ => validateDNSNames eng rest

/-- IP loop of `validateNames` (x509.go lines 145–152); the display
name is `ip.String()`. -/
def validateIPs (eng : NamePolicyEngine) : List (List Nat) → Except PolicyError Unit
  | [] => .ok ()
  | ip :: rest =>
    match checkNameConstraints (strBytes (r"ip")) (ipString ip) ip
        (fun i c => matchIPConstraint i c) (fun n => goQuote (ipnetString n))
        eng.permittedIPRanges eng.excludedIPRanges with
    | .error e => .error (.invalid e)
    | .ok _ => validateIPs eng rest

/-- Email loop of `validateNames` (x509.go lines 154–165).  On a parse
failure the Go code formats the variable `mailbox` — which still holds
the zero value, since `parseRFC2821Mailbox` only assigns it on success
— rather than `email`, so the message quotes the empty mailbox. -/
def validateEmails (eng : NamePolicyEngine) : List (List Nat) → Except PolicyError Unit
  | [] => .ok ()
  | email :: rest =>
    match parseRFC2821Mailbox email with
    | none =>
      .error (.parse (strBytes (r"cannot parse rfc822Name ") ++
        goFmtQMailbox ⟨[], []⟩))
    | some mailbox =>
      match checkNameConstraints (strBytes (r"email")) email mailbox
          (fun mb c => matchEmailConstraint mb c) goQuote
          eng.permittedEmailAddresses eng.excludedEmailAddresses with
      | .error e => .error (.invalid e)
      | .ok _ => validateEmails eng rest

/-- URI loop of `validateNames` (x509.go lines 167–174); the display
name is `uri.String()`. -/
def validateURIs (eng : NamePolicyEngine) : List URL → Except PolicyError Unit
  | [] => .ok ()
  | uri :: rest =>
    match checkNameConstraints (strBytes (r"uri")) uri.str uri
        (fun u c => matchURIConstraint u c) goQuote
        eng.permittedURIDomains eng.excludedURIDomains with
    | .error e => .error (.invalid e)
    | .ok _ => validateURIs eng rest

/-- Model of `validateNames` (x509.go lines 122–184): the four buckets
are checked in order, stopping at the first failure. -/
def validateNames (eng : NamePolicyEngine) (dnsNames : List (List Nat))
    (ips : List (List Nat)) (emailAddresses : List (List Nat)) (uris : List URL) :
    Except PolicyError Unit :=
  match validateDNSNames eng dnsNames with
  | .error e => .error e
  | .ok _ =>
    match validateIPs eng ips with
    | .error e => .error e
    | .ok _ =>
      match validateEmails eng emailAddresses with
      | .error e => .error e
      | .ok _ => validateURIs eng uris

/-- The qtext byte set claimed by the specification for quoted-string
mode: `{11,12,32,33,127} ∪ [1,8] ∪ [35,91] ∪ [93,126]`. -/
abbrev claimQtext (c : Nat) : Prop :=
  c = 11 ∨ c = 12 ∨ c = 32 ∨ c = 33 ∨ c = 127 ∨ (1 ≤ c ∧ c ≤ 8) ∨
  (35 ≤ c ∧ c ≤ 91) ∨ (93 ≤ c ∧ c ≤ 126)

/-- The claimed qtext set amended with the range [14,31], which the
code (x509.go line 365, the RFC 2821 non-whitespace-control range)
also accepts. -/
abbrev amendedQtext (c : Nat) : Prop :=
  c = 11 ∨ c = 12 ∨ c = 32 ∨ c = 33 ∨ c = 127 ∨ (1 ≤ c ∧ c ≤ 8) ∨
  (14 ≤ c ∧ c ≤ 31) ∨ (35 ≤ c ∧ c ≤ 91) ∨ (93 ≤ c ∧ c ≤ 126)

/-- Standard CIDR containment as worded by the specification: "ip-match
(ip, n) = true iff n contains ip under standard CIDR rules; mismatched
address families never match", with candidate and network both taken in
canonical form (4-byte when an address has one, per the normalization
note of spec §9) and the mask aligned to the canonical network. -/
def cidrContainsSpec (ip : List Nat) (n : IPNet) : Bool :=
  let cip := (to4 ip).getD ip
  let cnn := (to4 n.ip).getD n.ip
  let cm := n.mask.drop (n.mask.length - cnn.length)
  cip.length == cnn.length && maskedEq cnn cip cm

theorem excludedScan_ok_iff {α β : Type} (nameType name : List Nat) (parsedName : α)
    (m : α → β → Except (List Nat) Bool) (fmtC : β → List Nat) (excluded : List β) :
    excludedScan nameType name parsedName m fmtC excluded = .ok () ↔
      ∀ x ∈ excluded, m parsedName x = .ok false := by
  induction excluded with
  | nil => simp [excludedScan]
  | cons a as ih =>
    cases hm : m parsedName a with
    | error e => simp [excludedScan, hm]
    | ok b =>
      cases b
      · simp [excludedScan, hm, ih]
      · simp [excludedScan, hm]

theorem excludedScan_first_match {α β : Type} (nameType name : List Nat) (parsedName : α)
    (m : α → β → Except (List Nat) Bool) (fmtC : β → List Nat)
    (exPre : List β) (c : β) (exPost : List β)
    (hpre : ∀ x ∈ exPre, m parsedName x = .ok false) (hc : m parsedName c = .ok true) :
    excludedScan nameType name parsedName m fmtC (exPre ++ c :: exPost) =
      .error ⟨.CANotAuthorizedForThisName, excludedDetail nameType name (fmtC c)⟩ := by
  induction exPre with
  | nil => simp [excludedScan, hc]
  | cons a as ih =>
    have ha : m parsedName a = .ok false := hpre a (by simp)
    have hrest : ∀ x ∈ as, m parsedName x = .ok false := fun x hx => hpre x (by simp [hx])
    simp [excludedScan, ha, ih hrest]

theorem excludedScan_first_error {α β : Type} (nameType name : List Nat) (parsedName : α)
    (m : α → β → Except (List Nat) Bool) (fmtC : β → List Nat)
    (exPre : List β) (c : β) (exPost : List β) (e : List Nat)
    (hpre : ∀ x ∈ exPre, m parsedName x = .ok false) (hc : m parsedName c = .error e) :
    excludedScan nameType name parsedName m fmtC (exPre ++ c :: exPost) =
      .error ⟨.CANotAuthorizedForThisName, e⟩ := by
  induction exPre with
  | nil => simp [excludedScan, hc]
  | cons a as ih =>
    have ha : m parsedName a = .ok false := hpre a (by simp)
    have hrest : ∀ x ∈ as, m parsedName x = .ok false := fun x hx => hpre x (by simp [hx])
    simp [excludedScan, ha, ih hrest]

theorem permittedAny_first_error {α β : Type} (parsedName : α)
    (m : α → β → Except (List Nat) Bool)
    (pPre : List β) (c : β) (pPost : List β) (e : List Nat)
    (hpre : ∀ x ∈ pPre, m parsedName x = .ok false) (hc : m parsedName c = .error e) :
    permittedAny parsedName m (pPre ++ c :: pPost) = .error e := by
  induction pPre with
  | nil => simp [permittedAny, hc]
  | cons a as ih =>
    have ha : m parsedName a = .ok false := hpre a (by simp)
    have hrest : ∀ x ∈ as, m parsedName x = .ok false := fun x hx => hpre x (by simp [hx])
    simp [permittedAny, ha, ih hrest]

/-- C1: an excluded match always wins: whatever the permitted list is,
a name matching some excluded entry is refused with a
`CANotAuthorizedForThisName` error, and when the matching entry is the
first excluded entry reached (all entries before it not matching), the
error detail cites that entry. -/
theorem checkNameConstraints_excluded_wins {α β : Type}
    (m : α → β → Except (List Nat) Bool) (parsedName : α) (fmtC : β → List Nat)
    (nameType name : List Nat) (permitted : List β) :
    (∀ excluded : List β, (∃ x ∈ excluded, m parsedName x = .ok true) →
        ∃ d, checkNameConstraints nameType name parsedName m fmtC permitted excluded =
          .error ⟨.CANotAuthorizedForThisName, d⟩)
  ∧ (∀ (exPre : List β) (c : β) (exPost : List β),
        (∀ x ∈ exPre, m parsedName x = .ok false) → m parsedName c = .ok true →
        checkNameConstraints nameType name parsedName m fmtC permitted (exPre ++ c :: exPost) =
          .error ⟨.CANotAuthorizedForThisName, excludedDetail nameType name (fmtC c)⟩) := by
  constructor
  · intro excluded hex
    induction excluded with
    | nil => rcases hex with ⟨x, hx, _⟩; cases hx
    | cons a as ih =>
      rcases hex with ⟨x, hx, hmx⟩
      cases hm : m parsedName a with
      | error e => exact ⟨e, by simp [checkNameConstraints, excludedScan, hm]⟩
      | ok b =>
        cases b with
        | true =>
          exact ⟨excludedDetail nameType name (fmtC a),
            by simp [checkNameConstraints, excludedScan, hm]⟩
        | false =>
          rcases List.mem_cons.mp hx with rfl | hx2
          · rw [hm] at hmx; cases hmx
          · obtain ⟨d, hd⟩ := ih ⟨x, hx2, hmx⟩
            refine ⟨d, ?_⟩
            have hstep : checkNameConstraints nameType name parsedName m fmtC permitted (a :: as) =
                checkNameConstraints nameType name parsedName m fmtC permitted as := by
              simp [checkNameConstraints, excludedScan, hm]
            rw [hstep]
            exact hd
  · intro exPre c exPost hpre hc
    have hscan := excludedScan_first_match nameType name parsedName m fmtC exPre c exPost hpre hc
    simp [checkNameConstraints, hscan]

/-- C1 witness: the name `secret.example.com` matches both the
permitted entry `example.com` and the excluded entry
`secret.example.com`; the decision is refusal citing the excluded
entry. -/
theorem checkNameConstraints_excluded_wins_witness :
    checkNameConstraints (strBytes (r"dns")) (strBytes (r"secret.example.com"))
      (strBytes (r"secret.example.com")) (fun d c => matchDomainConstraint d c) goQuote
      [strBytes (r"example.com")] [strBytes (r"secret.example.com")] =
      .error ⟨.CANotAuthorizedForThisName,
        excludedDetail (strBytes (r"dns")) (strBytes (r"secret.example.com"))
          (goQuote (strBytes (r"secret.example.com")))⟩ :=
  (checkNameConstraints_excluded_wins (fun d c => matchDomainConstraint d c)
    (strBytes (r"secret.example.com")) goQuote (strBytes (r"dns"))
    (strBytes (r"secret.example.com")) [strBytes (r"example.com")]).2
    [] (strBytes (r"secret.example.com")) [] (by simp) (by decide)

/-- C2: with an empty permitted list, checkNameConstraints succeeds
exactly when every excluded-list matcher call returns a clean
non-match — no excluded entry matches and no call errors. -/
theorem checkNameConstraints_empty_permitted {α β : Type}
    (m : α → β → Except (List Nat) Bool) (parsedName : α) (fmtC : β → List Nat)
    (nameType name : List Nat) (excluded : List β) :
    checkNameConstraints nameType name parsedName m fmtC [] excluded = .ok () ↔
      ∀ x ∈ excluded, m parsedName x = .ok false := by
  rw [← excludedScan_ok_iff nameType name parsedName m fmtC excluded]
  cases hs : excludedScan nameType name parsedName m fmtC excluded with
  | error e => simp [checkNameConstraints, hs]
  | ok u =>
    cases u
    simp [checkNameConstraints, hs]

/-- C10: a matcher error met while scanning the excluded list (after
clean non-matches) or while scanning the permitted list (after a clean
excluded scan and clean earlier non-matches) is surfaced as a
`CANotAuthorizedForThisName` error whose detail is the matcher error
message itself — no distinct cannot-parse reason exists. -/
theorem checkNameConstraints_matcher_error_reason {α β : Type}
    (m : α → β → Except (List Nat) Bool) (parsedName : α) (fmtC : β → List Nat)
    (nameType name : List Nat) :
    (∀ (permitted exPre exPost : List β) (c : β) (e : List Nat),
        (∀ x ∈ exPre, m parsedName x = .ok false) → m parsedName c = .error e →
        checkNameConstraints nameType name parsedName m fmtC permitted (exPre ++ c :: exPost) =
          .error ⟨.CANotAuthorizedForThisName, e⟩)
  ∧ (∀ (excluded pPre pPost : List β) (c : β) (e : List Nat),
        (∀ x ∈ excluded, m parsedName x = .ok false) →
        (∀ x ∈ pPre, m parsedName x = .ok false) → m parsedName c = .error e →
        checkNameConstraints nameType name parsedName m fmtC (pPre ++ c :: pPost) excluded =
          .error ⟨.CANotAuthorizedForThisName, e⟩) := by
  constructor
  · intro permitted exPre exPost c e hpre hc
    have hscan :=
      excludedScan_first_error nameType name parsedName m fmtC exPre c exPost e hpre hc
    simp [checkNameConstraints, hscan]
  · intro excluded pPre pPost c e hex hpre hc
    have hscan := (excludedScan_ok_iff nameType name parsedName m fmtC excluded).mpr hex
    have hperm := permittedAny_first_error parsedName m pPre c pPost e hpre hc
    have hne : ((pPre ++ c :: pPost) : List β).isEmpty = false := by
      cases pPre <;> simp
    simp [checkNameConstraints, hscan, hne, hperm]

/-- C10 witness: an unparseable excluded DNS constraint `a..b` turns
into a `CANotAuthorizedForThisName` error carrying the parse message. -/
theorem checkNameConstraints_matcher_error_reason_witness :
    checkNameConstraints (strBytes (r"dns")) (strBytes (r"x")) (strBytes (r"x"))
      (fun d c => matchDomainConstraint d c) goQuote ([] : List (List Nat))
      [strBytes (r"a..b")] =
      .error ⟨.CANotAuthorizedForThisName,
        strBytes (r"cannot parse domain ") ++ goQuote (strBytes (r"a..b"))⟩ :=
  (checkNameConstraints_matcher_error_reason (fun d c => matchDomainConstraint d c)
    (strBytes (r"x")) goQuote (strBytes (r"dns")) (strBytes (r"x"))).1
    [] [] [] (strBytes (r"a..b")) _ (by simp) (by decide)

theorem labelsMatchFold_iff : ∀ (cs ds : List (List Nat)),
    labelsMatchFold cs ds = true ↔
      (ds.map (List.map asciiLower)).take cs.length = cs.map (List.map asciiLower) := by
  intro cs
  induction cs with
  | nil => intro ds; simp [labelsMatchFold]
  | cons c cs ih =>
    intro ds
    cases ds with
    | nil => simp [labelsMatchFold]
    | cons d ds =>
      simp only [labelsMatchFold, List.map_cons, List.length_cons, List.take_succ_cons,
        List.cons.injEq, Bool.and_eq_true, eqFold, beq_iff_eq, ih]
      constructor
      · rintro ⟨h1, h2⟩; exact ⟨h1.symm, h2⟩
      · rintro ⟨h1, h2⟩; exact ⟨h1.symm, h2⟩

/-- C3: for a non-empty constraint without a leading dot,
matchDomainConstraint reports a match exactly when both sides parse to
reverse label sequences, the domain has at least as many labels, and
the constraint labels are a case-insensitive prefix of the domain's
reverse labels (i.e. a rightmost-aligned suffix of the domain). -/
theorem matchDomainConstraint_no_leading_dot (d c : List Nat)
    (hne : c ≠ []) (hdot : c.head? ≠ some 46) :
    matchDomainConstraint d c = .ok true ↔
      ∃ dl cl, domainToReverseLabels d = some dl ∧ domainToReverseLabels c = some cl ∧
        cl.length ≤ dl.length ∧
        (dl.map (List.map asciiLower)).take cl.length = cl.map (List.map asciiLower) := by
  cases hdd : domainToReverseLabels d with
  | none =>
    simp [matchDomainConstraint, hne, hdd]
  | some dl =>
    cases hcc : domainToReverseLabels c with
    | none =>
      simp [matchDomainConstraint, hne, hdot, hdd, hcc]
    | some cl =>
      have hred : matchDomainConstraint d c =
          if dl.length < cl.length then .ok false else .ok (labelsMatchFold cl dl) := by
        simp [matchDomainConstraint, hne, hdot, hdd, hcc]
      rw [hred]
      by_cases hlen : dl.length < cl.length
      · rw [if_pos hlen]
        constructor
        · intro h; cases h
        · rintro ⟨dl', cl', hdd', hcl', hle, _⟩
          injection hdd' with h1
          injection hcl' with h2
          subst h1
          subst h2
          omega
      · rw [if_neg hlen]
        simp only [Except.ok.injEq]
        rw [labelsMatchFold_iff]
        constructor
        · intro htake; exact ⟨dl, cl, rfl, rfl, by omega, htake⟩
        · rintro ⟨dl', cl', hdd', hcl', _, htake⟩
          injection hdd' with h1
          injection hcl' with h2
          subst h1
          subst h2
          exact htake

/-- C3 witness: `www.example.com` against constraint `example.com`. -/
theorem matchDomainConstraint_no_leading_dot_witness :
    matchDomainConstraint (strBytes (r"www.example.com")) (strBytes (r"example.com")) = .ok true ↔
      ∃ dl cl,
        domainToReverseLabels (strBytes (r"www.example.com")) = some dl ∧
        domainToReverseLabels (strBytes (r"example.com")) = some cl ∧
        cl.length ≤ dl.length ∧
        (dl.map (List.map asciiLower)).take cl.length = cl.map (List.map asciiLower) :=
  matchDomainConstraint_no_leading_dot (strBytes (r"www.example.com"))
    (strBytes (r"example.com")) (by decide) (by decide)

/-- C4: a leading-dot constraint never matches a domain with exactly as
many labels as the stripped constraint, whatever the labels are. -/
theorem matchDomainConstraint_leading_dot_equal_labels (d c : List Nat)
    (dl cl : List (List Nat)) (hdot : c.head? = some 46)
    (hd : domainToReverseLabels d = some dl)
    (hc : domainToReverseLabels c.tail = some cl)
    (hlen : dl.length = cl.length) :
    matchDomainConstraint d c = .ok false := by
  have hne : c ≠ [] := by intro h; rw [h] at hdot; cases hdot
  simp [matchDomainConstraint, hne, hdot, hd, hc, hlen]

/-- C4 witness: `example.com` against constraint `.example.com`, whose
labels match exactly but whose counts are equal, is refused. -/
theorem matchDomainConstraint_leading_dot_equal_labels_witness :
    matchDomainConstraint (strBytes (r"example.com")) (strBytes (r".example.com")) = .ok false :=
  matchDomainConstraint_leading_dot_equal_labels (strBytes (r"example.com"))
    (strBytes (r".example.com")) [strBytes (r"com"), strBytes (r"example")]
    [strBytes (r"com"), strBytes (r"example")] (by decide) (by decide) (by decide) (by decide)

theorem to4_some_length {x y : List Nat} (h : to4 x = some y) : y.length = 4 := by
  unfold to4 at h
  split_ifs at h with h1 h2
  · cases h; exact h1
  · cases h; simp [List.length_drop, h2.1]

/-- C5: matchIPConstraint never errors and decides exactly the
specification's CIDR containment on canonical (family-normalized)
forms, for every well-formed network (4-byte address with 4-byte mask,
or 16-byte address with 16-byte mask, as produced by `net.ParseCIDR`);
in particular the 16-byte form of an IPv4 candidate matches the same
networks as its 4-byte form, and mismatched families never match. -/
theorem matchIPConstraint_cidr (ip : List Nat) (n : IPNet)
    (hwf : (n.ip.length = 4 ∧ n.mask.length = 4) ∨
      (n.ip.length = 16 ∧ n.mask.length = 16)) :
    matchIPConstraint ip n = .ok (cidrContainsSpec ip n) := by
  have hgoal : ipnetContains n ip = cidrContainsSpec ip n := by
    rcases hwf with ⟨hi4, hm4⟩ | ⟨hi16, hm16⟩
    · have hto : to4 n.ip = some n.ip := by simp [to4, hi4]
      have hnm : networkNumberAndMask n = some (n.ip, n.mask) := by
        simp [networkNumberAndMask, hto, hm4, hi4]
      simp [ipnetContains, hnm, cidrContainsSpec, hto, hm4, hi4]
    · cases hto : to4 n.ip with
      | none =>
        have hnm : networkNumberAndMask n = some (n.ip, n.mask) := by
          simp [networkNumberAndMask, hto, hm16, hi16]
        simp [ipnetContains, hnm, cidrContainsSpec, hto, hm16, hi16]
      | some ip4 =>
        have h4 : ip4.length = 4 := to4_some_length hto
        have hnm : networkNumberAndMask n = some (ip4, n.mask.drop 12) := by
          simp [networkNumberAndMask, hto, hm16, h4]
        have hdrop : n.mask.length - ip4.length = 12 := by omega
        simp [ipnetContains, hnm, cidrContainsSpec, hto, hdrop]
  simp [matchIPConstraint, hgoal]

/-- C5 witness: 127.0.0.1 held in 16-byte form is contained in the
permitted network 127.0.0.0/24. -/
theorem matchIPConstraint_cidr_witness :
    matchIPConstraint (v4InV6Prefix ++ [127, 0, 0, 1])
      ⟨[127, 0, 0, 0], [255, 255, 255, 0]⟩ = .ok true :=
  (matchIPConstraint_cidr (v4InV6Prefix ++ [127, 0, 0, 1])
    ⟨[127, 0, 0, 0], [255, 255, 255, 0]⟩ (by decide)).trans (by decide)

/-- C6: matchURIConstraint errors — and so never reports a match —
whenever the URI host is empty, and whenever the host left after port
stripping is a bracketed literal or parses as an IP address, whatever
the constraint is. -/
theorem matchURIConstraint_rejects_ip_or_empty_host (u : URL) (c : List Nat) :
    (u.Host = [] → (matchURIConstraint u c).isOk = false)
  ∧ (∀ h, uriEffectiveHost u.Host = .ok h →
      ((h.head? = some 91 ∧ h.getLast? = some 93) ∨ (parseIP h).isSome) →
      (matchURIConstraint u c).isOk = false) := by
  constructor
  · intro hH
    simp [matchURIConstraint, hH, Except.isOk, Except.toBool]
  · intro h hEff hLit
    cases hH : u.Host.isEmpty with
    | true => simp [matchURIConstraint, hH, Except.isOk, Except.toBool]
    | false =>
      simp only [matchURIConstraint, hH, Bool.false_eq_true, if_false]
      rw [hEff]
      simp only [if_pos hLit]
      simp [Except.isOk, Except.toBool]

/-- C6 witness: a URI with host `127.0.0.1` is rejected against an
arbitrary constraint. -/
theorem matchURIConstraint_rejects_witness :
    (matchURIConstraint ⟨strBytes (r"127.0.0.1"), strBytes (r"https://127.0.0.1/p")⟩
      (strBytes (r"example.com"))).isOk = false :=
  (matchURIConstraint_rejects_ip_or_empty_host
    ⟨strBytes (r"127.0.0.1"), strBytes (r"https://127.0.0.1/p")⟩
    (strBytes (r"example.com"))).2 (strBytes (r"127.0.0.1"))
    (by decide) (Or.inr (by decide))

/-- C7 counterexample: byte 14 lies outside the qtext set claimed by
the specification, yet parseRFC2821Mailbox accepts it unescaped inside
a quoted string (the input is `"\x0e"@e`). -/
theorem quotedString_qtext_claim_counterexample :
    ¬ claimQtext 14 ∧ parseRFC2821Mailbox [34, 14, 34, 64, 101] = some ⟨[14], [101]⟩ :=
  ⟨by decide, by decide⟩

/-- C7 (amended): in quoted-string mode the set of bytes accepted
unescaped as qtext is exactly `{11,12,32,33,127} ∪ [1,8] ∪ [14,31] ∪
[35,91] ∪ [93,126]`: any other unescaped byte (beyond the closing `"`
and the quoted-pair `\`) fails the parse, as does end of input before
the closing quote. -/
theorem quotedString_qtext_amended (c : Nat) (rest acc : List Nat)
    (h1 : c ≠ 34) (h2 : c ≠ 92) :
    (quotedString (c :: rest) acc =
      if amendedQtext c then quotedString rest (acc ++ [c]) else none)
  ∧ quotedString [] acc = none := by
  have hiff : isQtext c = true ↔ amendedQtext c := by
    simp [isQtext]
  constructor
  · rw [quotedString.eq_def]
    dsimp only
    rw [if_neg h1, if_neg h2]
    by_cases hq : amendedQtext c
    · rw [if_pos (hiff.mpr hq), if_pos hq]
    · rw [if_neg (fun hh => hq (hiff.mp hh)), if_neg hq]
  · rfl

/-- C7 witness: byte 14 is accepted as qtext and end of input fails. -/
theorem quotedString_qtext_amended_witness :
    (quotedString [14, 34] [] =
      if amendedQtext 14 then quotedString [34] ([] ++ [14]) else none)
  ∧ quotedString [] [] = none :=
  quotedString_qtext_amended 14 [34] [] (by decide) (by decide)

/-- C8: at the failing input — email bucket `["x"]`, no constraints —
validateNames returns the parse error whose detail quotes the
zero-valued mailbox struct, `cannot parse rfc822Name \x7b"" ""\x7d`,
which does not contain the offending email string `x` (byte 120). -/
theorem validateNames_email_parse_error_detail :
    validateNames emptyEngine [] [] [strBytes (r"x")] [] =
      .error (.parse (strBytes (r"cannot parse rfc822Name ") ++
        [123, 34, 34, 32, 34, 34, 125]))
  ∧ (120 : Nat) ∉ strBytes (r"cannot parse rfc822Name ") ++ [123, 34, 34, 32, 34, 34, 125] :=
  ⟨by decide, by decide⟩

/-- C9: domainToReverseLabels maps the empty string to an empty label
sequence; hence the empty DNS name passes the validator's parse step
(and, with no constraints configured, validates), and `user@` parses
as a mailbox whose domain is the empty string. -/
theorem validateNames_empty_domain_accepted :
    domainToReverseLabels [] = some []
  ∧ validateNames emptyEngine [[]] [] [] [] = .ok ()
  ∧ parseRFC2821Mailbox (strBytes (r"user@")) = some ⟨strBytes (r"user"), []⟩ :=
  ⟨by decide, by decide, by decide⟩

example : parseRFC2821Mailbox (strBytes (r"bob@example.com")) =
    some ⟨strBytes (r"bob"), strBytes (r"example.com")⟩ := by decide
example : parseRFC2821Mailbox (strBytes (r"user@")) = some ⟨strBytes (r"user"), []⟩ := by decide
example : parseRFC2821Mailbox (strBytes (r".a@x")) = none := by decide
example : parseRFC2821Mailbox (strBytes (r"a..b@x")) = none := by decide
example : parseRFC2821Mailbox (strBytes (r"x")) = none := by decide
example : parseRFC2821Mailbox ([34, 97, 32, 98, 34, 64, 120]) =
    some ⟨[97, 32, 98], [120]⟩ := by decide
example : parseRFC2821Mailbox ([34, 14, 34, 64, 101]) = some ⟨[14], [101]⟩ := by decide
example : matchEmailConstraint ⟨strBytes (r"bob"), strBytes (r"mail.example.com")⟩
    (strBytes (r".example.com")) = .ok true := by decide
example : matchEmailConstraint ⟨strBytes (r"bob"), strBytes (r"example.com")⟩
    (strBytes (r"bob@EXAMPLE.com")) = .ok true := by decide
example : matchEmailConstraint ⟨strBytes (r"Bob"), strBytes (r"example.com")⟩
    (strBytes (r"bob@example.com")) = .ok false := by decide
example : ipnetContains ⟨[127, 0, 0, 0], [255, 255, 255, 0]⟩
    (v4InV6Prefix ++ [127, 0, 0, 1]) = true := by decide
example : ipnetContains ⟨[127, 0, 0, 0], [255, 255, 255, 0]⟩ [127, 0, 0, 1] = true := by decide
example : ipnetContains ⟨[127, 0, 0, 0], [255, 255, 255, 0]⟩ [127, 0, 1, 1] = false := by decide
example : ipnetContains ⟨[10, 0, 0, 0], [255, 0, 0, 0]⟩ [10, 1, 2, 3] = true := by decide
example : ipString [192, 168, 0, 1] = strBytes (r"192.168.0.1") := by decide
example : ipString [0, 0, 0, 0, 0, 0, 0, 0, 0, 0, 0, 0, 0, 0, 0, 1] = strBytes (r"::1") := by decide
example : ipString [32, 1, 13, 184, 0, 0, 0, 0, 0, 1, 0, 0, 0, 0, 0, 1] =
    strBytes (r"2001:db8::1:0:0:1") := by decide
example : ipnetString ⟨[10, 0, 0, 0], [255, 0, 0, 0]⟩ = strBytes (r"10.0.0.0/8") := by decide
example : parseIP (strBytes (r"127.0.0.1")) = some (v4InV6Prefix ++ [127, 0, 0, 1]) := by decide
example : parseIP (strBytes (r"256.0.0.1")) = none := by decide
example : parseIP (strBytes (r"127.0.1")) = none := by decide
example : parseIP (strBytes (r"01.2.3.4")) = none := by decide
example : parseIP (strBytes (r"example.com")) = none := by decide
example : parseIP (strBytes (r"::1")) =
    some [0, 0, 0, 0, 0, 0, 0, 0, 0, 0, 0, 0, 0, 0, 0, 1] := by decide
example : parseIP (strBytes (r"2001:db8::68")) =
    some [32, 1, 13, 184, 0, 0, 0, 0, 0, 0, 0, 0, 0, 0, 0, 104] := by decide
example : parseIP (strBytes (r"::ffff:127.0.0.1")) =
    some (v4InV6Prefix ++ [127, 0, 0, 1]) := by decide
example : parseIP (strBytes (r"1:2:3:4:5:6:7:8:9")) = none := by decide
example : parseIP (strBytes (r"fe80::1%eth0")) =
    some [254, 128, 0, 0, 0, 0, 0, 0, 0, 0, 0, 0, 0, 0, 0, 1] := by decide
example : splitHostPort (strBytes (r"example.com:443")) =
    .ok (strBytes (r"example.com"), strBytes (r"443")) := by decide
example : splitHostPort ([91] ++ strBytes (r"::1") ++ [93] ++ strBytes (r":80")) =
    .ok (strBytes (r"::1"), strBytes (r"80")) := by decide
example : matchURIConstraint ⟨strBytes (r"www.example.com"), strBytes (r"https://www.example.com/a")⟩
    (strBytes (r"example.com")) = .ok true := by decide
example : (matchURIConstraint ⟨strBytes (r"127.0.0.1"), strBytes (r"https://127.0.0.1/a")⟩
    (strBytes (r"example.com"))).isOk = false := by decide
example : (matchURIConstraint ⟨[91] ++ strBytes (r"::1") ++ [93], strBytes (r"https://x")⟩
    (strBytes (r"example.com"))).isOk = false := by decide
example : (matchURIConstraint ⟨strBytes (r"127.0.0.1:8080"), strBytes (r"https://x")⟩
    (strBytes (r"example.com"))).isOk = false := by decide
example : validateNames
    { emptyEngine with
        permittedDNSDomains := [strBytes (r"example.com")],
        excludedDNSDomains := [strBytes (r"secret.example.com")] }
    [strBytes (r"www.example.com")] [] [] [] = .ok () := by decide
example : (validateNames
    { emptyEngine with
        permittedDNSDomains := [strBytes (r"example.com")],
        excludedDNSDomains := [strBytes (r"secret.example.com")] }
    [strBytes (r"secret.example.com")] [] [] []).isOk = false := by decide
example : (validateNames
    { emptyEngine with
        permittedDNSDomains := [strBytes (r"example.com")],
        excludedDNSDomains := [strBytes (r"secret.example.com")] }
    [strBytes (r"example.org")] [] [] []).isOk = false := by decide
example : validateNames
    { emptyEngine with permittedIPRanges := [⟨[10, 0, 0, 0], [255, 0, 0, 0]⟩] }
    [] [[10, 1, 2, 3]] [] [] = .ok () := by decide
example : (validateNames
    { emptyEngine with permittedIPRanges := [⟨[10, 0, 0, 0], [255, 0, 0, 0]⟩] }
    [] [[192, 168, 1, 1]] [] []).isOk = false := by decide
example : validateNames
    { emptyEngine with permittedEmailAddresses := [strBytes (r".example.com")] }
    [] [] [strBytes (r"bob@mail.example.com")] [] = .ok () := by decide
example : (validateNames
    { emptyEngine with permittedEmailAddresses := [strBytes (r".example.com")] }
    [] [] [strBytes (r"bob@example.com")] []).isOk = false := by decide
example : validateNames emptyEngine [] [] [strBytes (r"x")] [] =
    .error (.parse (strBytes (r"cannot parse rfc822Name ") ++
      [123, 34, 34, 32, 34, 34, 125])) := by decide
example : domainToReverseLabels (strBytes (r"foo.example.com")) =
    some [strBytes (r"com"), strBytes (r"example"), strBytes (r"foo")] := by decide
example : domainToReverseLabels [] = some [] := by decide
example : domainToReverseLabels (strBytes (r"a.")) = none := by decide
example : domainToReverseLabels (strBytes (r"a..b")) = none := by decide
example : matchDomainConstraint (strBytes (r"www.example.com")) (strBytes (r"example.com")) = .ok true := by decide
example : matchDomainConstraint (strBytes (r"example.com")) (strBytes (r".example.com")) = .ok false := by decide
example : matchDomainConstraint (strBytes (r"www.EXAMPLE.com")) (strBytes (r"example.COM")) = .ok true := by decide
example : matchDomainConstraint (strBytes (r"x")) (strBytes (r"a..b")) =
    .error (strBytes (r"cannot parse domain ") ++ goQuote (strBytes (r"a..b"))) := by decide
